import Mathlib

/-!
# Verification of the Auto_TS `AutoTimeSeries` orchestration core

Shallow embedding of `auto_ts/__init__.py` (class `AutoTimeSeries`): frequency
inference from the first index gap, the time-interval normalizer, the
model-attempt set, the per-family fit/score/store protocol with failure
isolation, the registry, and best-model selection.

Modelling conventions:
* Scores are `WithTop ℚ`: `np.inf` is `⊤`, finite backend scores are rationals.
* The first index gap is represented exactly as the Python `timedelta`
  components the code reads: `diff.days : Int` and `diff.seconds : Nat`.
* Opaque fitted-model handles and forecast arrays are type parameters `M`, `F`.
* Python's insertion-ordered dict `self.ml_dict` is a `List (String × Entry)`
  in insertion order; `min` over `dict.items()` is the left fold that keeps
  the first strictly-smallest element.
* A Python function that can raise `UnboundLocalError` is embedded with an
  explicit error constructor for that outcome.
-/

/-- Score under the configured metric: a float where `np.inf` is the
placeholder for "model could not be built" (lines 389, 433, 473, 510, 557,
607 of `auto_ts/__init__.py`). -/
abbrev Score := WithTop ℚ

/-- One registry entry of `self.ml_dict[name]`: the keys `'model'`,
`'forecast'` and `self.score_type` as stored at the end of each family block.
(The `'model_build'` key is not modelled: no verified property reads it.) -/
structure Entry (M F : Type) where
  model : Option M
  forecast : Option F
  score : Score
  deriving DecidableEq

/-- The placeholder values set at the top of every family block
(`score_val = np.inf; model = None; forecasts = None`). -/
def sentinelEntry (M F : Type) : Entry M F := { model := none, forecast := none, score := ⊤ }

/-- The registry `self.ml_dict`, in insertion order. -/
abbrev Registry (M F : Type) := List (String × Entry M F)

/-! ## Frequency inference (lines 272–316) -/

/-- Outcome of the interval-inference block when `self.time_interval is None`:
either `self.time_interval` is assigned a category string, or `fit` executes
`return None` ("Time Series time delta is unknown"), or the block raises
`UnboundLocalError` on `diff_in_days`. -/
inductive FreqResult where
  | interval (s : String)
  | fitNone
  | unboundLocal
  deriving DecidableEq

/-- Lines 275–316, with `diffdays = diff.days` and `diffsecs = diff.seconds`
of the first index gap as a Python `timedelta`.

When `diffsecs == 0` the code sets `diff_in_hours = 0` and
`diff_in_days = abs(diffdays)`; line 283's condition reduces to
`diff_in_days >= 1`, and otherwise line 306's `diff_in_days == 0` holds and
line 307's `diff_in_hours == 0` holds, selecting the minute branch.

When `diffsecs != 0` only `diff_in_hours` is assigned (line 282);
`diff_in_days` is never bound, and it is read either by line 283's second
conjunct (when `diff_in_hours == 0`) or by line 306 — so the block raises
`UnboundLocalError` in every such case. -/
def inferFreq (diffdays : Int) (diffsecs : Nat) : FreqResult :=
  if diffsecs = 0 then
    let diff_in_days := diffdays.natAbs
    if 1 ≤ diff_in_days then
      if diff_in_days = 7 then .interval "weeks"
      else if diff_in_days = 1 then .interval "days"
      else if 28 ≤ diff_in_days ∧ diff_in_days < 89 then .interval "months"
      else if 89 ≤ diff_in_days ∧ diff_in_days < 178 then .interval "qtr"
      else if 178 ≤ diff_in_days ∧ diff_in_days < 360 then .interval "qtr"
      else if 360 ≤ diff_in_days then .interval "years"
      else .fitNone
    else
      .interval "minutes"
  else
    .unboundLocal

/-! ## Time-interval normalization (lines 320–339) -/

/-- ASCII case-folding of one character, as Python's `str.lower` acts on the
ASCII range (the synonym table below contains only ASCII strings). -/
def pyLowerChar (c : Char) : Char :=
  if 'A' ≤ c ∧ c ≤ 'Z' then Char.ofNat (c.toNat + 32) else c

/-- Python `str.lower()` restricted to ASCII case-folding. -/
def py_lower (s : String) : String := ⟨s.data.map pyLowerChar⟩

/-- ASCII whitespace, as stripped by Python `str.strip()`. -/
def pySpace (c : Char) : Bool :=
  c = ' ' ∨ c = '\t' ∨ c = '\n' ∨ c = '\r' ∨ c = '\x0b' ∨ c = '\x0c'

/-- Python `str.strip()` (ASCII whitespace). -/
def py_strip (s : String) : String :=
  ⟨((s.data.dropWhile pySpace).reverse.dropWhile pySpace).reverse⟩

/-- Whether `needle` occurs at the start of `hay`. -/
def charsLeadWith : List Char → List Char → Bool
  | [], _ => true
  | _ :: _, [] => false
  | a :: as, b :: bs => a == b && charsLeadWith as bs

/-- Whether `needle` occurs as a contiguous run inside `hay`. -/
def charsContain (hay needle : List Char) : Bool :=
  charsLeadWith needle hay ||
    match hay with
    | [] => false
    | _ :: t => charsContain t needle

/-- Python's `needle in hay` on strings: substring containment. -/
def py_in_str (needle hay : String) : Bool := charsContain hay.data needle.data

/-- Lines 320–339: `self.time_interval.strip().lower()` followed by the fixed
synonym table; any unrecognized string defaults to `'months'`. -/
def normalize_time_interval (s : String) : String :=
  let t := py_lower (py_strip s)
  if t ∈ ["months", "month", "m"] then "months"
  else if t ∈ ["days", "daily", "d"] then "days"
  else if t ∈ ["weeks", "weekly", "w"] then "weeks"
  else if t ∈ ["qtr", "quarter", "q"] then "qtr"
  else if t ∈ ["years", "year", "annual", "y", "a"] then "years"
  else if t ∈ ["hours", "hourly", "h"] then "hours"
  else if t ∈ ["minutes", "minute", "min", "n"] then "minutes"
  else if t ∈ ["seconds", "second", "sec", "s"] then "seconds"
  else "months"

/-- Lines 342–360: impute `seasonal_period` from the (already normalized)
interval category. The source tests `self.time_interval in 'weeks'` etc. —
Python substring containment on a string literal — so the embedding uses a
substring test, not equality, from the third branch on. -/
def default_seasonal_period (ti : String) : Nat :=
  if ti = "months" then 12
  else if ti = "days" then 30
  else if py_in_str ti "weeks" then 52
  else if py_in_str ti "qtr" then 4
  else if py_in_str ti "years" then 1
  else if py_in_str ti "hours" then 24
  else if py_in_str ti "minutes" then 60
  else if py_in_str ti "seconds" then 60
  else 12

/-! ## The attempt set (lines 380, 420, 462, 500, 546, 596, 767–775) -/

/-- The six model families, in the order the `fit` body attempts them. -/
inductive Family where
  | prophet | pyflux | arima | sarimax | var | ml
  deriving DecidableEq

/-- The registry key used for each family (`name = ...` in each block). -/
def Family.regName : Family → String
  | .prophet => "FB_Prophet"
  | .pyflux => "PyFlux"
  | .arima => "ARIMA"
  | .sarimax => "SARIMAX"
  | .var => "VAR"
  | .ml => "ML"

/-- The `what_list` literal guarding each family's block. -/
def Family.triggers : Family → List String
  | .prophet => ["prophet", "best"]
  | .pyflux => ["pyflux", "stats", "best"]
  | .arima => ["ARIMA", "stats", "best"]
  | .sarimax => ["SARIMAX", "stats", "best"]
  | .var => ["VAR", "stats", "best"]
  | .ml => ["ml", "best"]

/-- Attempt order of the family blocks in the body of `fit`. -/
def attemptOrder : List Family := [.prophet, .pyflux, .arima, .sarimax, .var, .ml]

/-- `AutoTimeSeries.__any_contained_in_list` (lines 767–775) with its default
`lower=True`: both lists are lower-cased, and the result is whether any
element of `what_list` occurs in `in_list`. -/
def any_contained_in_list (what_list in_list : List String) : Bool :=
  (what_list.map py_lower).any fun elem => (in_list.map py_lower).contains elem

/-- Whether a family's block runs for a given `model_type` list. -/
def attempted (f : Family) (model_type : List String) : Bool :=
  any_contained_in_list f.triggers model_type

/-! ## Per-family fit/score/store protocol -/

/-- Outcome of one family's `try` block: the adapter's `fit` either raises
(any exception, including a missing backend, caught by the block's
`except`) or returns the four-tuple `(model, forecasts, rmse, norm_rmse)`.
(The PyFlux string-`rmse` path and a post-`fit` raise inside the Prophet
`try` are not modelled: no verified property depends on them.) -/
inductive AdapterOutcome (M F : Type) where
  | raise
  | ok (model : M) (forecasts : F) (rmse norm_rmse : Score)
  deriving DecidableEq

/-- The entry stored for family `f` at the end of its block, given the number
of exogenous predictor columns `np = len(preds)` and the adapter outcome.
The VAR block (lines 562–563) and the ML block (lines 612–613) skip the
`try` entirely when `len(preds) == 0`, leaving the placeholders; every block
stores `model`, `forecast` and the configured score key unconditionally at
its end. -/
def familyEntry (M F : Type) (f : Family) (np : Nat) (score_type : String)
    (o : AdapterOutcome M F) : Entry M F :=
  match f, np with
  | .var, 0 => sentinelEntry M F
  | .ml, 0 => sentinelEntry M F
  | _, _ =>
    match o with
    | .raise => sentinelEntry M F
    | .ok m fc rmse norm_rmse =>
      { model := some m, forecast := some fc,
        score := if score_type = "rmse" then rmse else norm_rmse }

/-- The registry built by one pass over the family blocks (lines 380–658):
`self.ml_dict` holds, in attempt order, one entry per family whose guard
matched `model_type`. -/
def runFamilies (M F : Type) (model_type : List String) (np : Nat)
    (score_type : String) (oc : Family → AdapterOutcome M F) : Registry M F :=
  (attemptOrder.filter fun f => attempted f model_type).map
    fun f => (f.regName, familyEntry M F f np score_type (oc f))

/-! ## Best-model selection (lines 676–684) -/

/-- The comparison step of Python's `min(f1_stats.items(), key=itemgetter(1))`:
scan in insertion order, replacing the current best only on a strictly
smaller score, so the first minimal entry wins ties. -/
def minStep (M F : Type) (acc y : String × Entry M F) : String × Entry M F :=
  if y.2.score < acc.2.score then y else acc

/-- `AutoTimeSeries.get_best_model_name` (lines 676–684): `min` over the
registry items keyed by the stored score. On an empty registry Python's
`min` raises `ValueError`; that failure is `none` here. -/
def get_best_model_name (M F : Type) (reg : Registry M F) : Option String :=
  match reg with
  | [] => none
  | x :: xs => some (xs.foldl (minStep M F) x).1

/-! ## The orchestration state across `fit` calls -/

/-- The fields of the `AutoTimeSeries` object that the frequency/seasonality
logic and the registry protocol read and write. -/
structure OrchState (M F : Type) where
  time_interval : Option String
  seasonal_period : Option Nat
  ml_dict : Registry M F
  deriving DecidableEq

/-- One `fit` call, from the interval-inference block to the end of the
family blocks, as a transition on `OrchState`:

* lines 272–316 run only when `self.time_interval is None`; on `fitNone` or
  `unboundLocal` the call produces no updated handle (`none` here);
* lines 320–339 always re-normalize `self.time_interval` in place;
* lines 342–360 impute `self.seasonal_period` only when it is `None`;
* line 365 rebuilds `self.ml_dict` from scratch, and the family blocks fill
  it (`runFamilies`). -/
def fitStep (M F : Type) (st : OrchState M F) (diffdays : Int) (diffsecs : Nat)
    (model_type : List String) (np : Nat) (score_type : String)
    (oc : Family → AdapterOutcome M F) : Option (OrchState M F) :=
  let ti0 : Option String :=
    match st.time_interval with
    | some t => some t
    | none =>
      match inferFreq diffdays diffsecs with
      | .interval s => some s
      | .fitNone => none
      | .unboundLocal => none
  match ti0 with
  | none => none
  | some t =>
    let ti := normalize_time_interval t
    let sp : Nat :=
      match st.seasonal_period with
      | some p => p
      | none => default_seasonal_period ti
    some { time_interval := some ti, seasonal_period := some sp,
           ml_dict := runFamilies M F model_type np score_type oc }

/-! ## The front of `fit` (lines 203–246) -/

/-- The `ts_column` argument: a column name, a column number, or a list. -/
inductive TsColArg where
  | name (s : String)
  | idx (n : Nat)
  | names (l : List String)
  deriving DecidableEq

/-- The `traindata` argument: a file path string, a dataframe, or anything
else. -/
inductive TrainArg (D : Type) where
  | path (s : String)
  | frame (d : D)
  | other
  deriving DecidableEq

/-- Uncaught Python exception raised by the front of `fit`. -/
inductive PyErr where
  | unboundLocal
  | indexError
  deriving DecidableEq

/-- Lines 203–246 of `fit`, up to `df_orig = copy.deepcopy(ts_df)`.
`loader` abstracts `load_ts_data`: `some df` on success, `none` when it
raises or returns a string (both make `fit` return `None`).

The local `ts_df` is unassigned until the loading branch runs, so:
* an `int` `ts_column` makes line 206 read `list(ts_df)` → `UnboundLocalError`;
* a `str` `traindata` equal to `''` skips the whole loading branch (line 222)
  and line 246 reads `ts_df` → `UnboundLocalError`.

The result is `.ok (some df)` when control reaches the deep-copy with a
loaded frame, and `.ok none` when `fit` executes one of its `return None`
statements in this region. -/
def fitFront (D : Type) (traindata : TrainArg D) (ts_column : TsColArg)
    (loader : Option D) : Except PyErr (Option D) :=
  match ts_column with
  | .idx _ => .error .unboundLocal
  | .names [] => .error .indexError
  | _ =>
    match traindata with
    | .path s =>
      if s = "" then .error .unboundLocal
      else
        match loader with
        | none => .ok none
        | some df => .ok (some df)
    | .frame _ =>
      match loader with
      | none => .ok none
      | some df => .ok (some df)
    | .other => .ok none

/-- Case-insensitive membership of a canonical (lower-case) token in the
caller's `model_type` list, the building block of the attempt-set
characterization. -/
def memCI (canon : String) (mt : List String) : Bool :=
  (mt.map py_lower).contains canon

/-- The registry of the specification's worked selection example:
A at score 5, B at score 2, C at the sentinel. -/
def regABC : Registry Unit Unit :=
  [("A", { model := some (), forecast := some (), score := (5 : ℚ) }),
   ("B", { model := some (), forecast := some (), score := (2 : ℚ) }),
   ("C", sentinelEntry Unit Unit)]

/-- The orchestration state left by a first `fit` call on a weekly series
(7-day first gap) with `model_type=['stats']`, no exogenous columns, and
every backend raising. -/
def stW : OrchState Unit Unit :=
  { time_interval := some "weeks", seasonal_period := some 52,
    ml_dict := runFamilies Unit Unit ["stats"] 0 "rmse" fun _ => AdapterOutcome.raise }

/-! ## Helper lemmas -/

lemma normalize_time_interval_mem (s : String) :
    normalize_time_interval s ∈
      (["months", "days", "weeks", "qtr", "years", "hours", "minutes", "seconds"] :
        List String) := by
  simp only [normalize_time_interval]
  split_ifs <;> simp

lemma normalize_time_interval_idem (s : String) :
    normalize_time_interval (normalize_time_interval s) = normalize_time_interval s := by
  have h := normalize_time_interval_mem s
  simp only [List.mem_cons, List.mem_singleton, List.not_mem_nil, or_false] at h
  rcases h with h | h | h | h | h | h | h | h <;> rw [h] <;> decide

lemma runFamilies_fst (M F : Type) (mt : List String) (np : Nat) (sty : String)
    (oc : Family → AdapterOutcome M F) :
    (runFamilies M F mt np sty oc).map Prod.fst
      = (attemptOrder.filter fun f => attempted f mt).map Family.regName := by
  unfold runFamilies
  rw [List.map_map]
  rfl

lemma mem_attemptOrder (f : Family) : f ∈ attemptOrder := by
  cases f <;> simp [attemptOrder]

lemma runFamilies_mem (M F : Type) (mt : List String) (np : Nat) (sty : String)
    (oc : Family → AdapterOutcome M F) (f : Family) (hf : attempted f mt = true) :
    (f.regName, familyEntry M F f np sty (oc f)) ∈ runFamilies M F mt np sty oc := by
  unfold runFamilies
  exact List.mem_map.mpr ⟨f, List.mem_filter.mpr ⟨mem_attemptOrder f, hf⟩, rfl⟩

lemma runFamilies_mem_inv (M F : Type) (mt : List String) (np : Nat) (sty : String)
    (oc : Family → AdapterOutcome M F) (p : String × Entry M F)
    (hp : p ∈ runFamilies M F mt np sty oc) :
    ∃ g : Family, attempted g mt = true ∧ p = (g.regName, familyEntry M F g np sty (oc g)) := by
  unfold runFamilies at hp
  rcases List.mem_map.mp hp with ⟨g, hg, rfl⟩
  exact ⟨g, (List.mem_filter.mp hg).2, rfl⟩

lemma regName_inj (g g2 : Family) (h : g.regName = g2.regName) : g = g2 := by
  cases g <;> cases g2 <;> first | rfl | (exfalso; revert h; decide)

/-! ## Claim theorems -/

/-- Claim C3 (status: code_bug). The spec says a sub-day first gap is
classified as hourly (≥ 1 whole hour) or minute-level (0 whole hours), and a
1-hour gap yields `"hourly"`. The code instead raises `UnboundLocalError` on
every gap with a nonzero sub-day component, because `diff_in_days` is only
assigned in the `diffsecs == 0` branch (line 280) yet is read at line 283 or
line 306: the hourly branch (lines 311–313) is unreachable, and the minute
branch is reachable only for a zero gap. -/
theorem c3_hourly_branch_unreachable :
    inferFreq 0 3600 = FreqResult.unboundLocal
    ∧ (∀ (diffdays : Int) (diffsecs : Nat),
        inferFreq diffdays (diffsecs + 1) = FreqResult.unboundLocal)
    ∧ (∀ (diffdays : Int) (diffsecs : Nat),
        inferFreq diffdays diffsecs ≠ FreqResult.interval "hours") := by
  refine ⟨by decide, ?_, ?_⟩
  · intro diffdays diffsecs
    simp [inferFreq]
  · intro diffdays diffsecs
    simp only [inferFreq]
    split_ifs <;> decide

set_option maxHeartbeats 1600000 in
/-- Claim C4 (status: confirmed). For a first gap with zero time-of-day
component (`diff.seconds == 0`) and whole-day magnitude `d = |diff.days|`:
`d = 1` is daily, `d = 7` weekly, `28 ≤ d < 89` monthly, `89 ≤ d < 178`
quarterly, `178 ≤ d < 360` quarterly (the semi-annual band), `d ≥ 360`
yearly, and any other whole-day gap (2–6 or 8–27 days) makes `fit` execute
`return None` (the `UnknownFrequency` failure). -/
theorem c4_whole_day_bands (diffdays : Int) :
    (diffdays.natAbs = 1 → inferFreq diffdays 0 = FreqResult.interval "days")
    ∧ (diffdays.natAbs = 7 → inferFreq diffdays 0 = FreqResult.interval "weeks")
    ∧ (28 ≤ diffdays.natAbs → diffdays.natAbs < 89 →
        inferFreq diffdays 0 = FreqResult.interval "months")
    ∧ (89 ≤ diffdays.natAbs → diffdays.natAbs < 178 →
        inferFreq diffdays 0 = FreqResult.interval "qtr")
    ∧ (178 ≤ diffdays.natAbs → diffdays.natAbs < 360 →
        inferFreq diffdays 0 = FreqResult.interval "qtr")
    ∧ (360 ≤ diffdays.natAbs → inferFreq diffdays 0 = FreqResult.interval "years")
    ∧ (2 ≤ diffdays.natAbs → diffdays.natAbs ≤ 6 → inferFreq diffdays 0 = FreqResult.fitNone)
    ∧ (8 ≤ diffdays.natAbs → diffdays.natAbs ≤ 27 →
        inferFreq diffdays 0 = FreqResult.fitNone) := by
  refine ⟨?_, ?_, ?_, ?_, ?_, ?_, ?_, ?_⟩ <;>
    · intros
      simp only [inferFreq]
      split_ifs <;> first | rfl | omega

/-- Witness for C4 at the concrete 7-day gap of the spec's example. -/
theorem c4_whole_day_bands_witness : inferFreq 7 0 = FreqResult.interval "weeks" :=
  (c4_whole_day_bands 7).2.1 rfl

/-- Claim C5 (status: confirmed). The normalizer maps every string to exactly
one of the 8 canonical categories; each documented synonym and casing variant
maps to its category; every unrecognized string maps to `"months"`. -/
theorem c5_normalizer :
    (∀ s : String, normalize_time_interval s ∈
      (["months", "days", "weeks", "qtr", "years", "hours", "minutes", "seconds"] :
        List String))
    ∧ (∀ s : String,
        py_lower (py_strip s) ∉
          (["months", "month", "m"] ++ ["days", "daily", "d"] ++ ["weeks", "weekly", "w"]
            ++ ["qtr", "quarter", "q"] ++ ["years", "year", "annual", "y", "a"]
            ++ ["hours", "hourly", "h"] ++ ["minutes", "minute", "min", "n"]
            ++ ["seconds", "second", "sec", "s"] : List String) →
        normalize_time_interval s = "months")
    ∧ (∀ s ∈ (["months", "month", "m", "Month", "MONTHS", "M"] : List String),
        normalize_time_interval s = "months")
    ∧ (∀ s ∈ (["days", "daily", "d", "Daily", "D"] : List String),
        normalize_time_interval s = "days")
    ∧ (∀ s ∈ (["weeks", "weekly", "w", " WEEKLY ", "W"] : List String),
        normalize_time_interval s = "weeks")
    ∧ (∀ s ∈ (["qtr", "quarter", "q", "Quarter", "Q"] : List String),
        normalize_time_interval s = "qtr")
    ∧ (∀ s ∈ (["years", "year", "annual", "y", "a", "Annual", "Y", "A"] : List String),
        normalize_time_interval s = "years")
    ∧ (∀ s ∈ (["hours", "hourly", "h", "Hourly", "H"] : List String),
        normalize_time_interval s = "hours")
    ∧ (∀ s ∈ (["minutes", "minute", "min", "n", "Min", "N"] : List String),
        normalize_time_interval s = "minutes")
    ∧ (∀ s ∈ (["seconds", "second", "sec", "s", "Sec", "S"] : List String),
        normalize_time_interval s = "seconds")
    ∧ normalize_time_interval "fortnight" = "months"
    ∧ normalize_time_interval "" = "months" := by
  refine ⟨normalize_time_interval_mem, ?_, ?_, ?_, ?_, ?_, ?_, ?_, ?_, ?_, by decide, by decide⟩
  · intro s hs
    simp only [normalize_time_interval]
    split_ifs with h1 h2 h3 h4 h5 h6 h7 h8
    all_goals
      first
      | rfl
      | (exfalso
         apply hs
         simp only [List.append_assoc, List.mem_append]
         tauto)
  all_goals decide

/-- Witness for C5: the unrecognized string `"fortnight"` (its stripped,
lower-cased form matches no synonym) normalizes to `"months"`. -/
theorem c5_normalizer_witness : normalize_time_interval "fortnight" = "months" :=
  c5_normalizer.2.1 "fortnight" (by decide)

/-- Claim C10 (status: confirmed). `fit` is not total at its public
interface: an integer `ts_column` makes line 206 read the still-unassigned
`ts_df`, and an empty-string `traindata` skips the loading branch so line 246
reads the unassigned `ts_df`; both raise `UnboundLocalError` instead of
returning the `None` failure marker. -/
theorem c10_fit_front_unbound (D : Type) :
    (∀ (traindata : TrainArg D) (loader : Option D) (n : Nat),
        fitFront D traindata (.idx n) loader = .error .unboundLocal)
    ∧ (∀ (s : String) (loader : Option D),
        fitFront D (.path "") (.name s) loader = .error .unboundLocal) := by
  constructor
  · intro traindata loader n
    rfl
  · intro s loader
    simp [fitFront]

/-- Claim C6 (status: confirmed). A family's block runs iff the `model_type`
list contains (case-insensitively) that family's own trigger name, or
`"stats"` for exactly the four statistical families (PyFlux, ARIMA, SARIMAX,
VAR — not Prophet, not ML), or `"best"` for all six; `['best']` attempts all
six and `['ARIMA']` attempts exactly the ARIMA family. -/
theorem c6_attempt_set :
    (∀ mt : List String,
      attempted .prophet mt = (memCI "prophet" mt || memCI "best" mt)
      ∧ attempted .pyflux mt = (memCI "pyflux" mt || memCI "stats" mt || memCI "best" mt)
      ∧ attempted .arima mt = (memCI "arima" mt || memCI "stats" mt || memCI "best" mt)
      ∧ attempted .sarimax mt = (memCI "sarimax" mt || memCI "stats" mt || memCI "best" mt)
      ∧ attempted .var mt = (memCI "var" mt || memCI "stats" mt || memCI "best" mt)
      ∧ attempted .ml mt = (memCI "ml" mt || memCI "best" mt))
    ∧ (∀ f : Family, attempted f ["best"] = true)
    ∧ (∀ f : Family, attempted f ["ARIMA"] = decide (f = Family.arima)) := by
  refine ⟨?_, ?_, ?_⟩
  · intro mt
    have h1 : py_lower "prophet" = "prophet" := by decide
    have h2 : py_lower "best" = "best" := by decide
    have h3 : py_lower "pyflux" = "pyflux" := by decide
    have h4 : py_lower "stats" = "stats" := by decide
    have h5 : py_lower "ARIMA" = "arima" := by decide
    have h6 : py_lower "SARIMAX" = "sarimax" := by decide
    have h7 : py_lower "VAR" = "var" := by decide
    have h8 : py_lower "ml" = "ml" := by decide
    refine ⟨?_, ?_, ?_, ?_, ?_, ?_⟩ <;>
      · unfold attempted any_contained_in_list Family.triggers memCI
        simp only [List.map_cons, List.map_nil, List.any_cons, List.any_nil,
          h1, h2, h3, h4, h5, h6, h7, h8, Bool.or_false, Bool.or_assoc]
  · intro f
    cases f <;> decide
  · intro f
    cases f <;> decide

/-! ## The minimum scan of `get_best_model_name` -/

lemma foldl_minStep_spec (M F : Type) (xs : List (String × Entry M F)) :
    ∀ a : String × Entry M F,
      (xs.foldl (minStep M F) a = a ∧ ∀ y ∈ xs, a.2.score ≤ y.2.score) ∨
      (∃ i : Nat, ∃ hi : i < xs.length,
        xs.foldl (minStep M F) a = xs[i]
        ∧ xs[i].2.score < a.2.score
        ∧ (∀ y ∈ xs, xs[i].2.score ≤ y.2.score)
        ∧ ∀ j : Nat, ∀ hj : j < xs.length, j < i → xs[i].2.score < xs[j].2.score) := by
  induction xs with
  | nil =>
    intro a
    left
    exact ⟨rfl, by simp⟩
  | cons y ys ih =>
    intro a
    rw [List.foldl_cons]
    by_cases h : y.2.score < a.2.score
    · have hstep : minStep M F a y = y := by simp [minStep, h]
      rw [hstep]
      rcases ih y with ⟨heq, hall⟩ | ⟨i, hi, heq, hlt, hall, hfirst⟩
      · right
        refine ⟨0, by simp, ?_, ?_, ?_, ?_⟩
        · simpa using heq
        · simpa using h
        · intro z hz
          rcases List.mem_cons.mp hz with rfl | hz
          · simp
          · simpa using hall z hz
        · intro j hj hj0
          omega
      · right
        refine ⟨i + 1, by simpa using Nat.succ_lt_succ hi, ?_, ?_, ?_, ?_⟩
        · simpa using heq
        · simpa using lt_trans hlt h
        · intro z hz
          rcases List.mem_cons.mp hz with rfl | hz
          · simpa using le_of_lt hlt
          · simpa using hall z hz
        · intro j hj hji
          cases j with
          | zero => simpa using hlt
          | succ k =>
            have hk : k < ys.length := by simpa using hj
            have hki : k < i := by omega
            simpa using hfirst k hk hki
    · have hstep : minStep M F a y = a := by simp [minStep, h]
      rw [hstep]
      have hay : a.2.score ≤ y.2.score := le_of_not_lt h
      rcases ih a with ⟨heq, hall⟩ | ⟨i, hi, heq, hlt, hall, hfirst⟩
      · left
        refine ⟨heq, ?_⟩
        intro z hz
        rcases List.mem_cons.mp hz with rfl | hz
        · exact hay
        · exact hall z hz
      · right
        refine ⟨i + 1, by simpa using Nat.succ_lt_succ hi, ?_, ?_, ?_, ?_⟩
        · simpa using heq
        · simpa using hlt
        · intro z hz
          rcases List.mem_cons.mp hz with rfl | hz
          · simpa using le_trans (le_of_lt hlt) hay
          · simpa using hall z hz
        · intro j hj hji
          cases j with
          | zero => simpa using lt_of_lt_of_le hlt hay
          | succ k =>
            have hk : k < ys.length := by simpa using hj
            have hki : k < i := by omega
            simpa using hfirst k hk hki

lemma get_best_min (M F : Type) (reg : Registry M F) (n : String)
    (h : get_best_model_name M F reg = some n) :
    ∃ r ∈ reg, r.1 = n ∧ ∀ q ∈ reg, r.2.score ≤ q.2.score := by
  cases reg with
  | nil => simp [get_best_model_name] at h
  | cons x xs =>
    simp only [get_best_model_name, Option.some.injEq] at h
    rcases foldl_minStep_spec M F xs x with ⟨heq, hall⟩ | ⟨i, hi, heq, hlt, hall, _⟩
    · rw [heq] at h
      refine ⟨x, List.mem_cons_self x xs, h, ?_⟩
      intro q hq
      rcases List.mem_cons.mp hq with rfl | hq
      · exact le_refl _
      · exact hall q hq
    · rw [heq] at h
      refine ⟨xs[i], List.mem_cons_of_mem x (List.getElem_mem hi), h, ?_⟩
      intro q hq
      rcases List.mem_cons.mp hq with rfl | hq
      · exact le_of_lt hlt
      · exact hall q hq

/-- Claim C1 (status: confirmed). For every non-empty registry produced by a
fit call, `get_best_model_name` returns the name of the entry at some index
`i` whose stored score is minimal, and every strictly earlier entry has a
strictly larger score — so ties go to the first-encountered entry; the
registry itself lists the attempted families in attempt order
(FB_Prophet, PyFlux, ARIMA, SARIMAX, VAR, ML). -/
theorem c1_best_first_minimal :
    (∀ (M F : Type) (mt : List String) (np : Nat) (sty : String)
        (oc : Family → AdapterOutcome M F),
      (runFamilies M F mt np sty oc).map Prod.fst
        = (attemptOrder.filter fun f => attempted f mt).map Family.regName)
    ∧ ∀ (M F : Type) (reg : Registry M F), reg ≠ [] →
        ∃ i : Nat, ∃ hi : i < reg.length,
          get_best_model_name M F reg = some (reg[i].1)
          ∧ (∀ j : Nat, ∀ hj : j < reg.length, reg[i].2.score ≤ reg[j].2.score)
          ∧ (∀ j : Nat, ∀ hj : j < reg.length, j < i → reg[i].2.score < reg[j].2.score) := by
  constructor
  · exact runFamilies_fst
  · intro M F reg hne
    cases reg with
    | nil => exact absurd rfl hne
    | cons x xs =>
      rcases foldl_minStep_spec M F xs x with ⟨heq, hall⟩ | ⟨i, hi, heq, hlt, hall, hfirst⟩
      · refine ⟨0, by simp, ?_, ?_, ?_⟩
        · simp [get_best_model_name, heq]
        · intro j hj
          cases j with
          | zero => exact le_refl _
          | succ k =>
            have hk : k < xs.length := by simpa using hj
            simpa using hall xs[k] (List.getElem_mem hk)
        · intro j hj hj0
          omega
      · refine ⟨i + 1, by simpa using Nat.succ_lt_succ hi, ?_, ?_, ?_⟩
        · simp [get_best_model_name, heq]
        · intro j hj
          cases j with
          | zero => simpa using le_of_lt hlt
          | succ k =>
            have hk : k < xs.length := by simpa using hj
            simpa using hall xs[k] (List.getElem_mem hk)
        · intro j hj hji
          cases j with
          | zero => simpa using hlt
          | succ k =>
            have hk : k < xs.length := by simpa using hj
            have hki : k < i := by omega
            simpa using hfirst k hk hki

/-- Witness for C1 on the spec's worked example (A at 5, B at 2, C at the
sentinel): the selected entry exists, is minimal, and earlier entries score
strictly higher. -/
theorem c1_best_first_minimal_witness :
    ∃ i : Nat, ∃ hi : i < regABC.length,
      get_best_model_name Unit Unit regABC = some (regABC[i].1)
      ∧ (∀ j : Nat, ∀ hj : j < regABC.length, regABC[i].2.score ≤ regABC[j].2.score)
      ∧ (∀ j : Nat, ∀ hj : j < regABC.length, j < i →
          regABC[i].2.score < regABC[j].2.score) :=
  c1_best_first_minimal.2 Unit Unit regABC (List.cons_ne_nil _ _)

/-- Claim C2 (status: corrected), counterexample: a fit call that attempts
only Prophet and whose adapter raises leaves a registry whose single entry is
at the sentinel score, yet `get_best_model_name` returns `"FB_Prophet"`
instead of failing — there is no `NoModelAvailable` path in the code. -/
theorem c2_counterexample :
    get_best_model_name Unit Unit
        (runFamilies Unit Unit ["prophet"] 0 "rmse" fun _ => AdapterOutcome.raise)
      = some "FB_Prophet" := by
  decide

/-- Claim C2 (status: corrected), amended: on an empty registry
`get_best_model_name` fails (Python `min` raises `ValueError` on an empty
sequence — there is no `NoModelAvailable` error anywhere); on a non-empty
registry in which every entry is at the sentinel score it does NOT fail: it
returns the first-encountered entry's name. -/
theorem c2_all_sentinel_returns_first :
    (∀ M F : Type, get_best_model_name M F ([] : Registry M F) = none)
    ∧ ∀ (M F : Type) (reg : Registry M F), reg ≠ [] → (∀ p ∈ reg, p.2.score = ⊤) →
        get_best_model_name M F reg = reg.head?.map Prod.fst := by
  constructor
  · intro M F
    rfl
  · intro M F reg hne htop
    cases reg with
    | nil => exact absurd rfl hne
    | cons x xs =>
      rcases foldl_minStep_spec M F xs x with ⟨heq, _⟩ | ⟨i, hi, heq, hlt, _, _⟩
      · simp [get_best_model_name, heq]
      · exfalso
        have hx : x.2.score = ⊤ := htop x (List.mem_cons_self x xs)
        have hxi : xs[i].2.score = ⊤ :=
          htop xs[i] (List.mem_cons_of_mem x (List.getElem_mem hi))
        rw [hx, hxi] at hlt
        exact lt_irrefl _ hlt

/-- Witness for the amended C2 on a one-entry all-sentinel registry. -/
theorem c2_all_sentinel_returns_first_witness :
    get_best_model_name Unit Unit [("FB_Prophet", sentinelEntry Unit Unit)]
      = ([("FB_Prophet", sentinelEntry Unit Unit)] : Registry Unit Unit).head?.map Prod.fst :=
  c2_all_sentinel_returns_first.2 Unit Unit _ (List.cons_ne_nil _ _)
    (by
      intro p hp
      have hp2 : p = ("FB_Prophet", sentinelEntry Unit Unit) := by simpa using hp
      rw [hp2]
      rfl)

/-- Claim C7 (status: confirmed). For every attempted family, an entry under
that family's registry name is stored whatever the adapter outcomes are (so a
raise in one family never prevents the others from being attempted and
`runFamilies` is total — the exception does not escape `fit`), and if that
family's adapter fit raises, its stored entry is exactly the sentinel
(model `None`, forecast `None`, score `+inf`). -/
theorem c7_adapter_failure_isolated :
    ∀ (M F : Type) (mt : List String) (np : Nat) (sty : String)
      (oc : Family → AdapterOutcome M F) (f : Family),
      attempted f mt = true →
      (f.regName, familyEntry M F f np sty (oc f)) ∈ runFamilies M F mt np sty oc
      ∧ (oc f = AdapterOutcome.raise → familyEntry M F f np sty (oc f) = sentinelEntry M F) := by
  intro M F mt np sty oc f hf
  refine ⟨runFamilies_mem M F mt np sty oc f hf, ?_⟩
  intro hr
  rw [hr]
  cases f <;> cases np <;> rfl

/-- Witness for C7: a run over `['ARIMA']` whose adapter raises still stores
the ARIMA entry, as the sentinel. -/
theorem c7_adapter_failure_isolated_witness :
    ("ARIMA", sentinelEntry Unit Unit)
      ∈ runFamilies Unit Unit ["ARIMA"] 1 "rmse" fun _ => AdapterOutcome.raise := by
  have h := c7_adapter_failure_isolated Unit Unit ["ARIMA"] 1 "rmse"
      (fun _ => AdapterOutcome.raise) Family.arima (by decide)
  exact h.1

/-- Claim C8 (status: confirmed). With zero exogenous predictor columns the
VAR and ML blocks never invoke their backend fit: their entries are stored as
the sentinel whatever the adapter outcomes are, the whole registry is
independent of the VAR/ML outcomes, and if `get_best_model_name` nonetheless
selects `"VAR"` or `"ML"` then every entry of the registry is at the sentinel
score. -/
theorem c8_no_exogenous_skips_var_ml :
    ∀ (M F : Type) (mt : List String) (sty : String) (oc : Family → AdapterOutcome M F),
      (attempted .var mt = true → ("VAR", sentinelEntry M F) ∈ runFamilies M F mt 0 sty oc)
      ∧ (attempted .ml mt = true → ("ML", sentinelEntry M F) ∈ runFamilies M F mt 0 sty oc)
      ∧ (∀ oc2 : Family → AdapterOutcome M F,
          (∀ g : Family, g ≠ Family.var → g ≠ Family.ml → oc g = oc2 g) →
          runFamilies M F mt 0 sty oc = runFamilies M F mt 0 sty oc2)
      ∧ ((get_best_model_name M F (runFamilies M F mt 0 sty oc) = some "VAR"
            ∨ get_best_model_name M F (runFamilies M F mt 0 sty oc) = some "ML") →
          ∀ p ∈ runFamilies M F mt 0 sty oc, p.2.score = ⊤) := by
  intro M F mt sty oc
  refine ⟨?_, ?_, ?_, ?_⟩
  · intro h
    exact runFamilies_mem M F mt 0 sty oc .var h
  · intro h
    exact runFamilies_mem M F mt 0 sty oc .ml h
  · intro oc2 hoc
    unfold runFamilies
    apply List.map_congr_left
    intro g hg
    cases g with
    | var => rfl
    | ml => rfl
    | prophet => rw [hoc Family.prophet (by decide) (by decide)]
    | pyflux => rw [hoc Family.pyflux (by decide) (by decide)]
    | arima => rw [hoc Family.arima (by decide) (by decide)]
    | sarimax => rw [hoc Family.sarimax (by decide) (by decide)]
  · intro hbest p hp
    have hn : ∃ n, get_best_model_name M F (runFamilies M F mt 0 sty oc) = some n
        ∧ (n = "VAR" ∨ n = "ML") := by
      rcases hbest with h | h
      · exact ⟨"VAR", h, Or.inl rfl⟩
      · exact ⟨"ML", h, Or.inr rfl⟩
    rcases hn with ⟨n, hn, hVM⟩
    rcases get_best_min M F _ n hn with ⟨r, hr, hrname, hrmin⟩
    rcases runFamilies_mem_inv M F mt 0 sty oc r hr with ⟨g, hg, rfl⟩
    have hgv : g = Family.var ∨ g = Family.ml := by
      rcases hVM with h | h
      · exact Or.inl (regName_inj g Family.var (by simpa [h] using hrname))
      · exact Or.inr (regName_inj g Family.ml (by simpa [h] using hrname))
    have hrtop : (g.regName, familyEntry M F g 0 sty (oc g)).2.score = ⊤ := by
      rcases hgv with rfl | rfl <;> rfl
    have hle := hrmin p hp
    rw [hrtop] at hle
    exact top_le_iff.mp hle

/-- Witness for C8: with `model_type=['VAR']`, zero predictors and a backend
that would even succeed, the VAR entry is still the sentinel. -/
theorem c8_no_exogenous_skips_var_ml_witness :
    ("VAR", sentinelEntry Unit Unit)
      ∈ runFamilies Unit Unit ["VAR"] 0 "rmse" fun _ =>
          AdapterOutcome.ok () () ((1 : ℚ) : Score) ((2 : ℚ) : Score) :=
  (c8_no_exogenous_skips_var_ml Unit Unit ["VAR"] "rmse" _).1 (by decide)

/-- Claim C9 (status: corrected), counterexample: starting from a fresh
object (`time_interval=None`, `seasonal_period=None`), a first `fit` on a
7-day gap infers `"weeks"`; a second `fit` on the same object with a 1-day
gap still reports `"weeks"`, because `self.time_interval` is not reset and
the inference branch is skipped — whereas a fresh object on a 1-day gap
yields `"days"`. The inferred interval category does carry over between
calls. -/
theorem c9_counterexample :
    ((fitStep Unit Unit ⟨none, none, []⟩ 7 0 ["stats"] 0 "rmse" fun _ =>
          AdapterOutcome.raise).bind fun st1 =>
        fitStep Unit Unit st1 1 0 ["stats"] 0 "rmse" fun _ =>
          AdapterOutcome.raise).map OrchState.time_interval
      = some (some "weeks")
    ∧ ((fitStep Unit Unit ⟨none, none, []⟩ 1 0 ["stats"] 0 "rmse" fun _ =>
          AdapterOutcome.raise).map OrchState.time_interval)
      = some (some "days") := by
  constructor
  · decide
  · decide

/-- Claim C9 (status: corrected), amended: line 365 does rebuild the registry
from scratch on every call, but `time_interval` and `seasonal_period` are
never reset: any state produced by a successful `fit` call is a fixed point
of `fitStep` for every later gap — the second call skips inference entirely
and reproduces the same interval, period and registry, whatever the new
input's gap is. -/
theorem c9_registry_reset_interval_persists :
    ∀ (M F : Type) (st : OrchState M F) (dd : Int) (ds : Nat) (mt : List String)
      (np : Nat) (sty : String) (oc : Family → AdapterOutcome M F) (st2 : OrchState M F),
      fitStep M F st dd ds mt np sty oc = some st2 →
      st2.ml_dict = runFamilies M F mt np sty oc
      ∧ ∀ (dd2 : Int) (ds2 : Nat), fitStep M F st2 dd2 ds2 mt np sty oc = some st2 := by
  intro M F st dd ds mt np sty oc st2 h
  cases hti : st.time_interval with
  | some t =>
    simp only [fitStep, hti] at h
    injection h with h
    subst h
    constructor
    · rfl
    · intro dd2 ds2
      simp [fitStep, normalize_time_interval_idem]
  | none =>
    cases hif : inferFreq dd ds with
    | interval s =>
      simp only [fitStep, hti, hif] at h
      injection h with h
      subst h
      constructor
      · rfl
      · intro dd2 ds2
        simp [fitStep, normalize_time_interval_idem]
    | fitNone =>
      simp only [fitStep, hti, hif] at h
      exact absurd h (by simp)
    | unboundLocal =>
      simp only [fitStep, hti, hif] at h
      exact absurd h (by simp)

/-- Witness for the amended C9: the state left by a first weekly fit is a
fixed point of every later `fitStep`, and its registry is the freshly built
one. -/
theorem c9_registry_reset_interval_persists_witness :
    stW.ml_dict = runFamilies Unit Unit ["stats"] 0 "rmse" (fun _ => AdapterOutcome.raise)
    ∧ ∀ (dd2 : Int) (ds2 : Nat),
        fitStep Unit Unit stW dd2 ds2 ["stats"] 0 "rmse" (fun _ => AdapterOutcome.raise)
          = some stW :=
  c9_registry_reset_interval_persists Unit Unit ⟨none, none, []⟩ 7 0 ["stats"] 0 "rmse"
    (fun _ => AdapterOutcome.raise) stW (by decide)
